import Mathlib

/-!
Verification of the DDOS-Map frontend core (`src/frontend/main.js`).

The development shallowly embeds the event-to-visual pipeline of the
repository: the arc lifecycle engine (`handleSSEEvent` admission,
`animateArcs` ticks, `MAX_ARCS` eviction), the rolling aggregation
window (`pruneWindow`, `renderInfographic`), the deterministic jitter
fallback (`jitterHub`), the great-circle interpolator (`gcInterpolate`)
and the SSE connection loop (`connectSSE`).  JavaScript numbers are
idealized as rationals (reals where trigonometry is involved); 32-bit
bitwise operations are modelled with explicit `% 2^32` wrap-around.
-/

namespace DDOSMap

/-! ## Arc lifecycle data model (`main.js` lines 132-147, 407-422) -/

/-- `MAX_ARCS = 150` (main.js line 132). -/
def MAX_ARCS : Nat := 150

/-- `TRAVEL_MS = 1200` (main.js line 146). -/
def TRAVEL_MS : ℚ := 1200

/-- `FADE_MS = 2000` (main.js line 147). -/
def FADE_MS : ℚ := 2000

/-- The record pushed by `handleSSEEvent` (main.js lines 410-419).
Times and coordinates are rationals; `color` is kept as the palette
index produced by `nextColor`. -/
structure ArcRecord where
  sourcePosition : ℚ × ℚ
  finalTarget : ℚ × ℚ
  color : Nat
  width : ℚ
  born : ℚ
  progress : ℚ
  alpha : ℚ
  maxAltMeters : ℚ
deriving DecidableEq

/-- `initialT = 0.02` (main.js line 407). -/
def initialT : ℚ := 1/50

/-- The record literal of `arcs.push({...})` in `handleSSEEvent`
(main.js lines 410-419): `progress` starts at `initialT`, `alpha` at 1. -/
def mkArc (src dst : ℚ × ℚ) (color : Nat) (w born alt : ℚ) : ArcRecord :=
  { sourcePosition := src
    finalTarget := dst
    color := color
    width := w
    born := born
    progress := initialT
    alpha := 1
    maxAltMeters := alt }

/-- `arcs.push(rec); if (arcs.length > MAX_ARCS) arcs.splice(0, arcs.length - MAX_ARCS)`
(main.js lines 410 and 422).  The front of the list is the oldest record. -/
def pushArc (arcs : List ArcRecord) (r : ArcRecord) : List ArcRecord :=
  if MAX_ARCS < (arcs ++ [r]).length then
    (arcs ++ [r]).drop ((arcs ++ [r]).length - MAX_ARCS)
  else arcs ++ [r]

/-- A whole sequence of admissions starting from the initial empty arc list
(`let arcs = []`, main.js line 133). -/
def pushAll (rs : List ArcRecord) : List ArcRecord :=
  rs.foldl pushArc []

theorem pushArc_length (arcs : List ArcRecord) (r : ArcRecord) :
    (pushArc arcs r).length = min (arcs.length + 1) MAX_ARCS := by
  unfold pushArc
  simp only [MAX_ARCS, List.length_append, List.length_singleton]
  split
  · rename_i h
    simp only [List.length_drop, List.length_append, List.length_singleton]
    omega
  · rename_i h
    simp only [List.length_append, List.length_singleton]
    omega

theorem pushAll_aux (rs : List ArcRecord) :
    ∀ init : List ArcRecord, init.length ≤ MAX_ARCS →
      (rs.foldl pushArc init).length ≤ MAX_ARCS := by
  induction rs with
  | nil => intro init h; simpa using h
  | cons r rest ih =>
    intro init h
    simp only [List.foldl_cons]
    exact ih (pushArc init r) (by rw [pushArc_length]; omega)

/-- **C1.** Immediately after each admission (`handleSSEEvent` push followed by
the `MAX_ARCS` splice) the live arc set holds at most 150 records, and the
post-admission list is a suffix of the pushed list of exact length
`min (n+1) 150`: the records removed are exactly the oldest ones at the
front, independent of their animation age. -/
theorem arc_cap_fifo_eviction :
    (∀ rs : List ArcRecord, (pushAll rs).length ≤ MAX_ARCS) ∧
    (∀ (arcs : List ArcRecord) (r : ArcRecord),
      (pushArc arcs r).length = min (arcs.length + 1) MAX_ARCS ∧
      (pushArc arcs r) <:+ (arcs ++ [r])) := by
  constructor
  · intro rs
    exact pushAll_aux rs [] (by simp [MAX_ARCS])
  · intro arcs r
    refine ⟨pushArc_length arcs r, ?_⟩
    unfold pushArc
    by_cases h : MAX_ARCS < (arcs ++ [r]).length
    · simp only [h, if_true]
      exact List.drop_suffix _ _
    · simp only [h, if_false]
      exact List.suffix_refl _

/-! ## Animation tick (`animateArcs`, main.js lines 278-303) -/

/-- `t = min(1, age / TRAVEL_MS); a.progress = 1 - (1 - t)^3`
(main.js lines 284-285): progress is recomputed from the age, not from
its previous value. -/
def progressAt (born now : ℚ) : ℚ :=
  1 - (1 - min 1 ((now - born) / TRAVEL_MS)) ^ 3

/-- main.js lines 287-292: once `progress >= 1`, `alpha = 1 - min(1, (age - TRAVEL_MS) / FADE_MS)`;
otherwise `alpha = 1`. -/
def alphaAt (born now : ℚ) : ℚ :=
  if 1 ≤ progressAt born now then
    1 - min 1 ((now - born - TRAVEL_MS) / FADE_MS)
  else 1

/-- `a.width = Math.max(0.8, a.width * (0.996 + 0.004 * (a.alpha ?? 1)))`
(main.js line 294), applied after the alpha update. -/
def stepWidth (w alpha : ℚ) : ℚ :=
  max (4/5) (w * (249/250 + alpha / 250))

/-- One `animateArcs` iteration body for a single record (main.js lines 282-294). -/
def tickArc (now : ℚ) (a : ArcRecord) : ArcRecord :=
  { a with
    progress := progressAt a.born now
    alpha := alphaAt a.born now
    width := stepWidth a.width (alphaAt a.born now) }

/-- One full `animateArcs` pass: every record is ticked and records with
`age >= TRAVEL_MS + FADE_MS` are spliced out (main.js lines 296-298). -/
def animateStep (now : ℚ) (arcs : List ArcRecord) : List ArcRecord :=
  (arcs.map (tickArc now)).filter (fun a => decide (now - a.born < TRAVEL_MS + FADE_MS))

theorem progressAt_mono (born : ℚ) {n1 n2 : ℚ} (h : n1 ≤ n2) :
    progressAt born n1 ≤ progressAt born n2 := by
  unfold progressAt
  have hx : (n1 - born) / TRAVEL_MS ≤ (n2 - born) / TRAVEL_MS := by
    apply (div_le_div_right (by norm_num [TRAVEL_MS])).mpr
    linarith
  have ht : min 1 ((n1 - born) / TRAVEL_MS) ≤ min 1 ((n2 - born) / TRAVEL_MS) :=
    min_le_min le_rfl hx
  have h2 : min 1 ((n2 - born) / TRAVEL_MS) ≤ 1 := min_le_left _ _
  have hcube : (1 - min 1 ((n2 - born) / TRAVEL_MS)) ^ 3
      ≤ (1 - min 1 ((n1 - born) / TRAVEL_MS)) ^ 3 :=
    pow_le_pow_left (by linarith) (by linarith) 3
  linarith

theorem progressAt_le_one (born now : ℚ) : progressAt born now ≤ 1 := by
  unfold progressAt
  have ht : min 1 ((now - born) / TRAVEL_MS) ≤ 1 := min_le_left _ _
  have : 0 ≤ (1 - min 1 ((now - born) / TRAVEL_MS)) ^ 3 := pow_nonneg (by linarith) 3
  linarith

theorem one_le_progressAt_iff (born now : ℚ) :
    1 ≤ progressAt born now ↔ TRAVEL_MS ≤ now - born := by
  unfold progressAt
  have hdiv : 1 ≤ (now - born) / TRAVEL_MS ↔ TRAVEL_MS ≤ now - born :=
    one_le_div (by norm_num [TRAVEL_MS])
  rcases le_total 1 ((now - born) / TRAVEL_MS) with h | h
  · rw [min_eq_left h]
    norm_num
    exact hdiv.mp h
  · rw [min_eq_right h]
    constructor
    · intro h1
      have hx : (1 - (now - born) / TRAVEL_MS) ^ 3 ≤ 0 := by linarith
      have hnn : 0 ≤ 1 - (now - born) / TRAVEL_MS := by linarith
      have hz : (1 - (now - born) / TRAVEL_MS) ^ 3 = 0 :=
        le_antisymm hx (pow_nonneg hnn 3)
      have : 1 - (now - born) / TRAVEL_MS = 0 := by
        exact pow_eq_zero_iff (by norm_num) |>.mp hz
      exact hdiv.mp (by linarith)
    · intro h1
      have : (1:ℚ) ≤ (now - born) / TRAVEL_MS := hdiv.mpr h1
      have hx : (now - born) / TRAVEL_MS = 1 := le_antisymm h this
      rw [hx]
      norm_num

theorem alphaAt_range (born now : ℚ) : 0 ≤ alphaAt born now ∧ alphaAt born now ≤ 1 := by
  unfold alphaAt
  by_cases h : 1 ≤ progressAt born now
  · rw [if_pos h]
    have h12 := (one_le_progressAt_iff born now).mp h
    constructor
    · have : min 1 ((now - born - TRAVEL_MS) / FADE_MS) ≤ 1 := min_le_left _ _
      linarith
    · have hy : 0 ≤ (now - born - TRAVEL_MS) / FADE_MS :=
        div_nonneg (by linarith) (by norm_num [FADE_MS])
      have : 0 ≤ min 1 ((now - born - TRAVEL_MS) / FADE_MS) := le_min (by norm_num) hy
      linarith
  · rw [if_neg h]
    norm_num

theorem alphaAt_anti (born : ℚ) {n1 n2 : ℚ} (h : n1 ≤ n2) :
    alphaAt born n2 ≤ alphaAt born n1 := by
  unfold alphaAt
  by_cases h1 : 1 ≤ progressAt born n1
  · have h2 : 1 ≤ progressAt born n2 := le_trans h1 (progressAt_mono born h)
    rw [if_pos h1, if_pos h2]
    have hmin : min 1 ((n1 - born - TRAVEL_MS) / FADE_MS)
        ≤ min 1 ((n2 - born - TRAVEL_MS) / FADE_MS) := by
      apply min_le_min le_rfl
      apply (div_le_div_right (by norm_num [FADE_MS])).mpr
      linarith
    linarith
  · rw [if_neg h1]
    by_cases h2 : 1 ≤ progressAt born n2
    · rw [if_pos h2]
      have h12 := (one_le_progressAt_iff born n2).mp h2
      have hy : 0 ≤ (n2 - born - TRAVEL_MS) / FADE_MS :=
        div_nonneg (by linarith) (by norm_num [FADE_MS])
      have : 0 ≤ min 1 ((n2 - born - TRAVEL_MS) / FADE_MS) := le_min (by norm_num) hy
      linarith
    · rw [if_neg h2]

/-- The freshly admitted record of the C2 counterexample: born at clock 0,
`progress = initialT = 0.02`. -/
def cexC2Arc : ArcRecord := mkArc (0, 0) (30, 40) 0 2 0 1740000

/-- **C2 counterexample.** A record is admitted with `progress = 0.02`, but an
`animateArcs` tick in the same millisecond (`now = born`) recomputes
`progress = 1 - (1 - min 1 0)^3 = 0`: the progress field strictly decreases
from its admission value, refuting monotonicity across the admission state. -/
theorem progress_drops_after_admission :
    cexC2Arc.progress = 1/50 ∧ (tickArc 0 cexC2Arc).progress = 0 ∧
    (tickArc 0 cexC2Arc).progress < cexC2Arc.progress := by
  have h : (tickArc 0 cexC2Arc).progress = 0 := by
    norm_num [tickArc, progressAt, cexC2Arc, mkArc, TRAVEL_MS]
  refine ⟨rfl, h, ?_⟩
  rw [h]
  norm_num [cexC2Arc, mkArc, initialT]

/-- **C2 (amended).** Across successive `animateArcs` ticks with non-decreasing
`now`, `progress` is non-decreasing and `alpha` is non-increasing; `alpha`
stays at 1 while `progress < 1` and can drop below 1 only once `progress`
has reached 1.  (The admission value `progress = 0.02` is not part of the
monotone chain: the first tick recomputes progress from the age and may
undershoot it, as the counterexample shows.) -/
theorem progress_monotone_alpha_after_travel (born n1 n2 : ℚ) (h : n1 ≤ n2) :
    progressAt born n1 ≤ progressAt born n2 ∧
    alphaAt born n2 ≤ alphaAt born n1 ∧
    (progressAt born n1 < 1 → alphaAt born n1 = 1) ∧
    (alphaAt born n1 < 1 → progressAt born n1 = 1) := by
  refine ⟨progressAt_mono born h, alphaAt_anti born h, ?_, ?_⟩
  · intro hp
    unfold alphaAt
    rw [if_neg (not_le.mpr hp)]
  · intro ha
    by_cases h1 : 1 ≤ progressAt born n1
    · exact le_antisymm (progressAt_le_one born n1) h1
    · exfalso
      unfold alphaAt at ha
      rw [if_neg h1] at ha
      exact absurd ha (lt_irrefl 1)

/-- Witness for the amended C2 theorem at `born = 0`, `n1 = 0`, `n2 = 600`. -/
theorem progress_monotone_alpha_witness :
    ((0:ℚ) ≤ 600) ∧
    (progressAt 0 0 ≤ progressAt 0 600 ∧
     alphaAt 0 600 ≤ alphaAt 0 0 ∧
     (progressAt 0 0 < 1 → alphaAt 0 0 = 1) ∧
     (alphaAt 0 0 < 1 → progressAt 0 0 = 1)) :=
  ⟨by norm_num, progress_monotone_alpha_after_travel 0 0 600 (by norm_num)⟩

/-- **C10.** For a live arc with width at least 0.8 and alpha in [0,1], an
`animateArcs` tick never increases the width and never lets it fall below
0.8: the decay factor `0.996 + 0.004 * alpha` is at most 1 and the result
is clamped from below at 0.8. -/
theorem tick_width_monotone_floor (now : ℚ) (a : ArcRecord)
    (hw : 4/5 ≤ a.width) (h0 : 0 ≤ a.alpha) (h1 : a.alpha ≤ 1) :
    (tickArc now a).width ≤ a.width ∧ 4/5 ≤ (tickArc now a).width := by
  have hrange := alphaAt_range a.born now
  have hfac : 249/250 + alphaAt a.born now / 250 ≤ 1 := by linarith [hrange.2]
  constructor
  · simp only [tickArc, stepWidth]
    apply max_le
    · linarith
    · calc a.width * (249/250 + alphaAt a.born now / 250)
          ≤ a.width * 1 := mul_le_mul_of_nonneg_left hfac (by linarith)
        _ = a.width := mul_one _
  · simp only [tickArc, stepWidth]
    exact le_max_left _ _

/-- A concrete live arc for the C10 witness. -/
def c10Arc : ArcRecord := mkArc (0, 0) (10, 10) 1 2 0 1500000

/-- Witness for C10 at `now = 100` on `c10Arc` (width 2, alpha 1). -/
theorem tick_width_witness :
    ((4:ℚ)/5 ≤ c10Arc.width ∧ (0:ℚ) ≤ c10Arc.alpha ∧ c10Arc.alpha ≤ 1) ∧
    ((tickArc 100 c10Arc).width ≤ c10Arc.width ∧ 4/5 ≤ (tickArc 100 c10Arc).width) :=
  ⟨⟨by norm_num [c10Arc, mkArc], by norm_num [c10Arc, mkArc], by norm_num [c10Arc, mkArc]⟩,
    tick_width_monotone_floor 100 c10Arc (by norm_num [c10Arc, mkArc])
      (by norm_num [c10Arc, mkArc]) (by norm_num [c10Arc, mkArc])⟩

/-! ## Aggregation window (`main.js` lines 307-336) -/

/-- `WINDOW_MS = 5 * 60 * 1000` (main.js line 307). -/
def WINDOW_MS : Int := 5 * 60 * 1000

/-- The object pushed into `windowEvents` (main.js lines 424-428). -/
structure WindowEntry where
  ts : Int
  country : String
  intensity : ℚ
deriving DecidableEq

/-- `pruneWindow(now)` (main.js lines 310-315): advances past the contiguous
front prefix with `ts < now - WINDOW_MS` and splices it off. -/
def pruneWindow (now : Int) (l : List WindowEntry) : List WindowEntry :=
  l.dropWhile (fun e => decide (e.ts < now - WINDOW_MS))

/-- The derived KPI snapshot of `renderInfographic` (main.js lines 317-336):
events in the last minute, cumulative intensity, ranked top-5 countries. -/
structure Stats where
  epm : Nat
  totalIntensity : ℚ
  top : List (String × Nat × ℚ)
deriving DecidableEq

/-- One `byCountry` update of `renderInfographic` (main.js lines 329-332):
the first occurrence fixes the country's position (JS `Map` preserves
insertion order); later occurrences bump count and intensity in place. -/
def bumpCountry (m : List (String × Nat × ℚ)) (c : String) (i : ℚ) :
    List (String × Nat × ℚ) :=
  match m with
  | [] => [(c, 1, i)]
  | (c', n, s) :: rest =>
    if c' = c then (c', n + 1, s + i) :: rest else (c', n, s) :: bumpCountry rest c i

/-- `byCountry` accumulated over the window log in arrival order. -/
def byCountry (l : List WindowEntry) : List (String × Nat × ℚ) :=
  l.foldl (fun m e => bumpCountry m e.country e.intensity) []

/-- Stable descending insertion matching the comparator
`(b.count - a.count) || (b.intensity - a.intensity)` of main.js line 335:
the inserted element passes `b` exactly when `b` strictly precedes it. -/
def insertRanked (x : String × Nat × ℚ) :
    List (String × Nat × ℚ) → List (String × Nat × ℚ)
  | [] => [x]
  | b :: rest =>
    if x.2.1 < b.2.1 ∨ (b.2.1 = x.2.1 ∧ x.2.2 < b.2.2) then b :: insertRanked x rest
    else x :: b :: rest

/-- The stable sort of main.js line 335 (count descending, ties by summed
intensity descending, original order on full ties). -/
def rankCountries (l : List (String × Nat × ℚ)) : List (String × Nat × ℚ) :=
  l.foldr insertRanked []

/-- The pure core of `renderInfographic` (main.js lines 317-336): note it
does not prune; it reads whatever `windowEvents` currently holds. -/
def computeStats (now : Int) (l : List WindowEntry) : Stats :=
  { epm := (l.filter (fun e => decide (now - 60 * 1000 ≤ e.ts))).length
    totalIntensity := (l.map (fun e => e.intensity)).sum
    top := (rankCountries (byCountry l)).take 5 }

theorem pruneWindow_keeps_fresh (now : Int) :
    ∀ l : List WindowEntry, List.Pairwise (fun a b => a.ts ≤ b.ts) l →
      ∀ e ∈ pruneWindow now l, now - WINDOW_MS ≤ e.ts := by
  intro l
  induction l with
  | nil => intro _ e he; simp [pruneWindow] at he
  | cons a rest ih =>
    intro hs e he
    rw [List.pairwise_cons] at hs
    unfold pruneWindow at he
    rw [List.dropWhile_cons] at he
    by_cases h : a.ts < now - WINDOW_MS
    · rw [if_pos (by simpa using h)] at he
      exact ih hs.2 e he
    · rw [if_neg (by simpa using h)] at he
      rcases List.mem_cons.mp he with rfl | hmem
      · omega
      · have := hs.1 e hmem
        omega

/-- **C5 counterexample.** `renderInfographic` itself never prunes: an entry at
`ts = 0` survives a prune at `now = 300000` (it is not yet strictly older
than the window), and the debounced statistics computation 150 ms later, at
`now = 300150`, still counts it — even though by then it is older than the
300000 ms trailing window at the time of computation (0 < 300150 - 300000).
So "every statistics computation includes no entry older than the window at
the time of computation" fails on the code. -/
theorem stale_entry_counted_after_debounce :
    pruneWindow 300000 [⟨0, "US", 2⟩] = [⟨0, "US", 2⟩] ∧
    (0 : Int) < 300150 - WINDOW_MS ∧
    (computeStats 300150 (pruneWindow 300000 [⟨0, "US", 2⟩])).totalIntensity = 2 := by
  refine ⟨rfl, by norm_num [WINDOW_MS], ?_⟩
  norm_num [computeStats, pruneWindow, WINDOW_MS, byCountry, bumpCountry,
    rankCountries, insertRanked, List.dropWhile]

/-- **C5 (amended).** When the statistics are computed at the same instant as
the prune — `pruneWindow now` followed immediately by `computeStats now`,
the sequencing `handleSSEEvent` performs — no entry older than the window
survives: over a log with non-decreasing timestamps every retained entry has
`ts ≥ now - 300000`, so an entry with timestamp `now - 300001` is pruned and
contributes to no derived count or intensity total.  (A computation at a
later instant than the last prune, e.g. after the 150 ms debounce, can
still include entries older than the window at computation time.) -/
theorem prune_then_stats_no_stale (now : Int) (l : List WindowEntry)
    (hs : List.Pairwise (fun a b => a.ts ≤ b.ts) l) :
    (∀ e ∈ pruneWindow now l, now - WINDOW_MS ≤ e.ts ∧ e.ts ≠ now - 300001) ∧
    (computeStats now (pruneWindow now l)).totalIntensity
      = ((pruneWindow now l).map (fun e => e.intensity)).sum := by
  refine ⟨?_, rfl⟩
  intro e he
  have h := pruneWindow_keeps_fresh now l hs e he
  refine ⟨h, ?_⟩
  simp only [WINDOW_MS] at h
  omega

/-- Witness for the amended C5 theorem on a concrete sorted two-entry log
at `now = 300002`: the entry at `ts = 1` is pruned, the one at `ts = 5`
is fresh. -/
theorem prune_then_stats_witness :
    (List.Pairwise (fun a b => a.ts ≤ b.ts)
      [(⟨1, "US", 1⟩ : WindowEntry), ⟨5, "DE", 1⟩]) ∧
    ((∀ e ∈ pruneWindow 300002 [(⟨1, "US", 1⟩ : WindowEntry), ⟨5, "DE", 1⟩],
        300002 - WINDOW_MS ≤ e.ts ∧ e.ts ≠ 300002 - 300001) ∧
     (computeStats 300002 (pruneWindow 300002 [(⟨1, "US", 1⟩ : WindowEntry), ⟨5, "DE", 1⟩])).totalIntensity
       = ((pruneWindow 300002 [(⟨1, "US", 1⟩ : WindowEntry), ⟨5, "DE", 1⟩]).map
           (fun e => e.intensity)).sum) :=
  ⟨by simp, prune_then_stats_no_stale 300002 _ (by simp)⟩

/-- **C6.** On the window log `[{US,1},{US,2},{DE,1}]`, all within the last
minute of `now = 100000`, the statistics computation reports events/min 3,
total intensity 4, and the ranking `[(US, 2, 3), (DE, 1, 1)]`, ordered by
event count with ties broken by summed intensity, descending. -/
theorem stats_concrete_example :
    computeStats 100000
      [⟨99000, "US", 1⟩, ⟨99100, "US", 2⟩, ⟨99200, "DE", 1⟩] =
      ⟨3, 4, [("US", 2, 3), ("DE", 1, 1)]⟩ := by
  simp only [computeStats, byCountry, bumpCountry, rankCountries, insertRanked,
    List.foldl, List.foldr, List.filter, List.map, List.sum, List.take]
  norm_num

/-! ## Ingestion defaulting (`handleSSEEvent`, main.js lines 400-428) -/

/-- A possibly-missing numeric payload field (`evt.intensity_index`). -/
inductive JNum where
  | missing : JNum
  | num : ℚ → JNum

/-- `Number(evt.intensity_index || 1)` (main.js lines 408 and 427): a missing
field or the falsy number 0 defaults to 1; every other number — including
negative ones — passes through unchanged. -/
def jsOr1 : JNum → ℚ
  | JNum.missing => 1
  | JNum.num q => if q = 0 then 1 else q

/-- ASCII uppercase over the character list, as `String.prototype.toUpperCase`
acts on the country codes involved. -/
def jsToUpper (s : String) : String :=
  String.mk (s.data.map Char.toUpper)

/-- The `windowEvents` entry built by `handleSSEEvent` (main.js lines 401-403
and 424-428): `srcCode = (evt.src_country || "").toUpperCase()`, stored
country `srcCode || "??"`, stored intensity `Number(evt.intensity_index || 1)`. -/
def ingestEntry (ts : Int) (src : Option String) (ii : JNum) : WindowEntry :=
  { ts := ts
    country := if jsToUpper (src.getD "") = "" then "??" else jsToUpper (src.getD "")
    intensity := jsOr1 ii }

/-- **C9 counterexample.** A negative intensity is not clamped: an event with
`intensity_index = -4` is stored in the window with intensity −4 < 1
(`Number(evt.intensity_index || 1)` only replaces falsy values, it never
applies a minimum), refuting "a missing, invalid, or negative intensity is
normalized with a minimum clamp to 1". -/
theorem negative_intensity_not_clamped :
    (ingestEntry 0 (some "US") (JNum.num (-4))).intensity = -4 ∧
    (ingestEntry 0 (some "US") (JNum.num (-4))).intensity < 1 := by
  norm_num [ingestEntry, jsOr1]

/-- **C9 (amended).** Invariant violations are normalized by defaulting rather
than rejected, but only falsy fields are defaulted: a missing or empty
source country code yields the `"??"` sentinel in the window entry, and a
missing or zero intensity defaults to 1 — while any nonzero intensity,
negative ones included, is stored unclamped. -/
theorem ingest_defaulting (ts : Int) (src : Option String) (q : ℚ) :
    (ingestEntry ts none JNum.missing).country = "??" ∧
    (ingestEntry ts (some "") JNum.missing).country = "??" ∧
    (ingestEntry ts src JNum.missing).intensity = 1 ∧
    (ingestEntry ts src (JNum.num 0)).intensity = 1 ∧
    (q ≠ 0 → (ingestEntry ts src (JNum.num q)).intensity = q) := by
  refine ⟨rfl, rfl, rfl, ?_, ?_⟩
  · simp [ingestEntry, jsOr1]
  · intro hq
    simp [ingestEntry, jsOr1, hq]

/-- Witness for the amended C9 theorem at `ts = 0`, `src = some "US"`, `q = 5`. -/
theorem ingest_defaulting_witness :
    ((5:ℚ) ≠ 0) ∧
    ((ingestEntry 0 none JNum.missing).country = "??" ∧
     (ingestEntry 0 (some "") JNum.missing).country = "??" ∧
     (ingestEntry 0 (some "US") JNum.missing).intensity = 1 ∧
     (ingestEntry 0 (some "US") (JNum.num 0)).intensity = 1 ∧
     ((5:ℚ) ≠ 0 → (ingestEntry 0 (some "US") (JNum.num 5)).intensity = 5)) :=
  ⟨by norm_num, ingest_defaulting 0 (some "US") 5⟩

/-! ## SSE connection manager (`connectSSE`, main.js lines 464-533)

The manager is modelled as a transition system.  Transports are the
`EventSource` objects ever created, in creation order, each flagged live
(`true`) or closed (`false`); `adopted` is the global `es` reference.
The events mirror the code paths of `connectSSE`:

* `connectStart` — function entry (lines 476-479): if `es` is set it is
  closed, then the reference is dropped.
* `probeCreate` — `new EventSource(url)` for the next candidate (line 484).
* `probeTimeout` — the 4-second open-timeout rejects (line 487) and the loop
  moves to the next candidate; the code never closes the probe transport.
* `probeAdopt` — `onopen` resolves within the timeout and the probe is
  adopted (`es = source`, line 492); `connectSSE` returns.
* `adoptedError` — `es.onerror` fires (lines 516-522): `es.close()` runs and
  a reconnect is scheduled (which will begin with `connectStart`). -/

inductive CEvent where
  | connectStart : CEvent
  | probeCreate : CEvent
  | probeTimeout : CEvent
  | probeAdopt : CEvent
  | adoptedError : CEvent
deriving DecidableEq

/-- Transport pool (creation order, `true` = live) plus the `es` reference. -/
structure ConnState where
  transports : List Bool
  adopted : Option Nat
deriving DecidableEq

/-- Page load: no transport exists, `es` is unset. -/
def connInit : ConnState := ⟨[], none⟩

/-- One transition of the connection manager (see the section comment). -/
def connStep (s : ConnState) : CEvent → ConnState
  | CEvent.connectStart =>
    match s.adopted with
    | some i => ⟨s.transports.set i false, none⟩
    | none => s
  | CEvent.probeCreate =>
    match s.adopted with
    | none => ⟨s.transports ++ [true], none⟩
    | some _ => s
  | CEvent.probeTimeout => s
  | CEvent.probeAdopt =>
    match s.adopted with
    | none =>
      if s.transports.length = 0 then s
      else ⟨s.transports, some (s.transports.length - 1)⟩
    | some _ => s
  | CEvent.adoptedError =>
    match s.adopted with
    | some i => ⟨s.transports.set i false, some i⟩
    | none => s

/-- The state reached from page load by a sequence of manager events. -/
def connRun (evts : List CEvent) : ConnState := evts.foldl connStep connInit

/-- Number of transports currently live (not closed). -/
def liveCount (s : ConnState) : Nat := (s.transports.filter (fun b => b)).length

/-- Whether transport `i` is live. -/
def liveAt (s : ConnState) (i : Nat) : Bool := s.transports.getD i false

/-- The execution of `connectSSE` in which the first candidate never opens
within the 4-second timeout and the second opens immediately. -/
def badGoodTrace : List CEvent :=
  [CEvent.connectStart, CEvent.probeCreate, CEvent.probeTimeout,
   CEvent.probeCreate, CEvent.probeAdopt]

/-- **C3 counterexample.** A real `connectSSE` run — first candidate times out,
second candidate opens and is adopted — reaches a state with two live
transports: the timed-out probe is abandoned without ever being closed
(`connectSSE` has no `source.close()` on the timeout path), so it stays
live alongside the adopted connection. -/
theorem two_live_transports_reachable : liveCount (connRun badGoodTrace) = 2 := by
  decide

theorem getD_set_false (l : List Bool) : ∀ i : Nat, (((l.set i false)[i]?).getD false) = false := by
  induction l with
  | nil => intro i; simp
  | cons a t ih =>
    intro i
    cases i with
    | zero => simp
    | succ n => simpa using ih n

/-- **C3 (amended).** The manager never leaves a stale *adopted* transport
open: a superseding `connectSSE` closes the previously adopted transport
before dropping the reference and probing anew, and a transport error
closes the erroring adopted transport before the reconnect. However, a
probe that times out is abandoned without being closed (`probeTimeout`
leaves the state unchanged), so two concurrently live transports are
reachable — a leaked timed-out probe next to the adopted connection. -/
theorem superseding_closes_adopted (s : ConnState) (i : Nat)
    (h : s.adopted = some i) :
    (connStep s CEvent.connectStart).adopted = none ∧
    liveAt (connStep s CEvent.connectStart) i = false ∧
    liveAt (connStep s CEvent.adoptedError) i = false ∧
    connStep s CEvent.probeTimeout = s := by
  refine ⟨?_, ?_, ?_, rfl⟩ <;> simp [connStep, h, liveAt, getD_set_false]

/-- Witness for the amended C3 theorem at the state with two transports of
which the second is adopted. -/
theorem superseding_closes_witness :
    ((⟨[true, true], some 1⟩ : ConnState).adopted = some 1) ∧
    ((connStep ⟨[true, true], some 1⟩ CEvent.connectStart).adopted = none ∧
     liveAt (connStep ⟨[true, true], some 1⟩ CEvent.connectStart) 1 = false ∧
     liveAt (connStep ⟨[true, true], some 1⟩ CEvent.adoptedError) 1 = false ∧
     connStep (⟨[true, true], some 1⟩ : ConnState) CEvent.probeTimeout
       = (⟨[true, true], some 1⟩ : ConnState)) :=
  ⟨rfl, superseding_closes_adopted ⟨[true, true], some 1⟩ 1 rfl⟩

/-- The candidate loop of `connectSSE` (main.js lines 481-528) as a function
of each candidate's behaviour (`true` = signals open within the 4-second
timeout): the first opening candidate's URL is adopted (`es = source;
return`), later candidates are never reached. -/
def connectLoop : List (String × Bool) → Option String
  | [] => none
  | (url, opens) :: rest => if opens then some url else connectLoop rest

/-- The URLs the loop actually tries (`new EventSource(url)` executed):
everything up to and including the first candidate that opens. -/
def triedUrls : List (String × Bool) → List String
  | [] => []
  | (url, opens) :: rest => url :: (if opens then [] else triedUrls rest)

/-- **C4.** For candidates `["badURL", "goodURL"]` where the first never opens
within its timeout and the second opens, `connectSSE` adopts `"goodURL"`
(the machine run `badGoodTrace` ends adopted on the second, still-live
transport, unaffected by the abandoned first probe); in general candidates
are tried in list order, the first to open is adopted, and the remaining
candidates are never tried. -/
theorem first_open_candidate_adopted :
    (connectLoop [("badURL", false), ("goodURL", true)] = some "goodURL" ∧
     triedUrls [("badURL", false), ("goodURL", true)] = ["badURL", "goodURL"] ∧
     (connRun badGoodTrace).adopted = some 1 ∧
     liveAt (connRun badGoodTrace) 1 = true) ∧
    (∀ (pre : List (String × Bool)) (url : String) (rest : List (String × Bool)),
      (∀ c ∈ pre, c.2 = false) →
      connectLoop (pre ++ (url, true) :: rest) = some url ∧
      triedUrls (pre ++ (url, true) :: rest) = pre.map Prod.fst ++ [url]) := by
  constructor
  · exact ⟨rfl, rfl, rfl, rfl⟩
  · intro pre url rest hpre
    induction pre with
    | nil => simp [connectLoop, triedUrls]
    | cons c t ih =>
      obtain ⟨u, o⟩ := c
      have ho : o = false := hpre (u, o) (List.mem_cons_self _ _)
      subst ho
      have ht := ih (fun x hx => hpre x (List.mem_cons_of_mem _ hx))
      simp [connectLoop, triedUrls, ht.1, ht.2]

/-- Witness for C4's universally quantified part at
`pre = [("badURL", false)]`, `url = "goodURL"`, `rest = []`. -/
theorem first_open_candidate_witness :
    (∀ c ∈ [("badURL", false)], c.2 = false) ∧
    (connectLoop ([("badURL", false)] ++ ("goodURL", true) :: []) = some "goodURL" ∧
     triedUrls ([("badURL", false)] ++ ("goodURL", true) :: [])
       = [("badURL", false)].map Prod.fst ++ ["goodURL"]) :=
  ⟨by decide, first_open_candidate_adopted.2 [("badURL", false)] "goodURL" [] (by decide)⟩

/-! ## Deterministic jitter fallback (`jitterHub`, main.js lines 392-399) -/

/-- JavaScript `| 0`: wrap to a signed 32-bit integer. -/
def to32 (x : Int) : Int := (x + 2 ^ 31) % 2 ^ 32 - 2 ^ 31

/-- One step of `h = ((h << 5) - h + seedStr.charCodeAt(i)) | 0`
(main.js line 394): the shift itself is a 32-bit operation. -/
def hashStep (h : Int) (c : Nat) : Int := to32 (to32 (h * 32) - h + c)

/-- The polynomial rolling hash of `jitterHub` over the seed's code units,
followed by `Math.abs` (main.js lines 393-395). -/
def jsAbsHash (s : String) : Nat :=
  (s.data.foldl (fun h c => hashStep h c.toNat) 0).natAbs

/-- JavaScript `%` on non-negative operands: `x - m * floor (x / m)`. -/
def qmod (x m : ℚ) : ℚ := x - m * (⌊x / m⌋ : ℚ)

/-- `jitterHub` up to the final cosine/sine (main.js lines 396-397): the
radius `10 + (h % 100) / 100 * 12` and the angle `(h / 100) % 360` in
degrees, both functions of the seed string alone. -/
def jitterHub (s : String) : ℚ × ℚ :=
  (10 + ((jsAbsHash s % 100 : Nat) : ℚ) / 100 * 12,
   qmod (((jsAbsHash s : Nat) : ℚ) / 100) 360)

/-- The returned Cartesian point `[r * cos ang, r * sin ang]`
(main.js line 398), with the angle converted by `Math.PI / 180`. -/
noncomputable def jitterHubXY (s : String) : ℝ × ℝ :=
  (((jitterHub s).1 : ℝ) * Real.cos (((jitterHub s).2 : ℝ) * Real.pi / 180),
   ((jitterHub s).1 : ℝ) * Real.sin (((jitterHub s).2 : ℝ) * Real.pi / 180))

theorem qmod_nonneg_lt (x : ℚ) {m : ℚ} (hm : 0 < m) :
    0 ≤ qmod x m ∧ qmod x m < m := by
  unfold qmod
  have h1 : ((⌊x / m⌋ : ℚ)) ≤ x / m := Int.floor_le _
  have h2 : x / m < (⌊x / m⌋ : ℚ) + 1 := Int.lt_floor_add_one _
  have h1' : ((⌊x / m⌋ : ℚ)) * m ≤ x := (le_div_iff hm).mp h1
  have h2' : x < ((⌊x / m⌋ : ℚ) + 1) * m := (div_lt_iff hm).mp h2
  have hc : m * ((⌊x / m⌋ : ℚ)) = ((⌊x / m⌋ : ℚ)) * m := mul_comm _ _
  constructor
  · linarith
  · nlinarith

/-- **C7.** The jitter fallback is pure and deterministic: it is a function of
the seed string alone (the embedding of main.js lines 392-398 reads no
other state), so two calls with equal seeds return bit-identical polar
data and bit-identical Cartesian coordinates; moreover the radius always
lies in the band [10, 22) angular degrees and the angle in [0, 360). -/
theorem jitterHub_pure_deterministic (s t : String) (h : s = t) :
    jitterHub s = jitterHub t ∧ jitterHubXY s = jitterHubXY t ∧
    10 ≤ (jitterHub s).1 ∧ (jitterHub s).1 < 22 ∧
    0 ≤ (jitterHub s).2 ∧ (jitterHub s).2 < 360 := by
  subst h
  have hq := qmod_nonneg_lt (((jsAbsHash s : Nat) : ℚ) / 100) (by norm_num : (0:ℚ) < 360)
  have hmlt : jsAbsHash s % 100 < 100 := Nat.mod_lt _ (by norm_num)
  have hm0 : (0:ℚ) ≤ ((jsAbsHash s % 100 : Nat) : ℚ) := Nat.cast_nonneg _
  have hm99 : ((jsAbsHash s % 100 : Nat) : ℚ) ≤ 99 := by
    have : jsAbsHash s % 100 ≤ 99 := by omega
    exact_mod_cast this
  refine ⟨rfl, rfl, ?_, ?_, hq.1, hq.2⟩
  · unfold jitterHub
    dsimp only
    linarith
  · unfold jitterHub
    dsimp only
    linarith

/-- Witness for C7 at the seed `"SRC|US"` (a seed `handleSSEEvent` builds). -/
theorem jitterHub_pure_witness :
    ("SRC|US" = "SRC|US") ∧
    (jitterHub "SRC|US" = jitterHub "SRC|US" ∧
     jitterHubXY "SRC|US" = jitterHubXY "SRC|US" ∧
     10 ≤ (jitterHub "SRC|US").1 ∧ (jitterHub "SRC|US").1 < 22 ∧
     0 ≤ (jitterHub "SRC|US").2 ∧ (jitterHub "SRC|US").2 < 360) :=
  ⟨rfl, jitterHub_pure_deterministic "SRC|US" "SRC|US" rfl⟩

/-! ## Great-circle interpolation (`gcInterpolate`, main.js lines 151-166) -/

/-- `toRad` (main.js line 152). -/
noncomputable def toRad (d : ℝ) : ℝ := d * Real.pi / 180

/-- `toDeg` (main.js line 153). -/
noncomputable def toDeg (r : ℝ) : ℝ := r * 180 / Real.pi

/-- The unit vector `v(φ, λ)` of main.js line 157 for a `[lng, lat]` pair. -/
noncomputable def sphVec (p : ℝ × ℝ) : ℝ × ℝ × ℝ :=
  (Real.cos (toRad p.2) * Real.cos (toRad p.1),
   Real.cos (toRad p.2) * Real.sin (toRad p.1),
   Real.sin (toRad p.2))

/-- The clamped dot product of main.js line 159. -/
noncomputable def gcDot (p q : ℝ × ℝ) : ℝ :=
  max (-1) (min 1 ((sphVec p).1 * (sphVec q).1 + (sphVec p).2.1 * (sphVec q).2.1 +
    (sphVec p).2.2 * (sphVec q).2.2))

/-- `ω = Math.acos(dot) || 1e-12` (main.js line 160): the clamp keeps `acos`
in [0, π], so the JavaScript falsy test fires exactly when the arc length
is 0 and replaces it with the guard value `1e-12`. -/
noncomputable def gcOmega (p q : ℝ × ℝ) : ℝ :=
  if Real.arccos (gcDot p q) = 0 then 1e-12 else Real.arccos (gcDot p q)

/-- `sinω` (main.js line 160), the divisor of the interpolation weights. -/
noncomputable def gcSinOmega (p q : ℝ × ℝ) : ℝ := Real.sin (gcOmega p q)

/-- The spherical interpolation weights `k1, k2` (main.js line 161). -/
noncomputable def gcK (p q : ℝ × ℝ) (t : ℝ) : ℝ × ℝ :=
  (Real.sin ((1 - t) * gcOmega p q) / gcSinOmega p q,
   Real.sin (t * gcOmega p q) / gcSinOmega p q)

/-- `Math.atan2 (y, x)` as the argument of the complex number `x + y i`. -/
noncomputable def atan2 (y x : ℝ) : ℝ := Complex.arg ⟨x, y⟩

/-- `gcInterpolate` (main.js lines 151-166): weighted combination of the two
unit vectors, recovered as longitude/latitude in degrees. -/
noncomputable def gcInterpolate (p q : ℝ × ℝ) (t : ℝ) : ℝ × ℝ :=
  let A := sphVec p
  let B := sphVec q
  let k := gcK p q t
  let x := k.1 * A.1 + k.2 * B.1
  let y := k.1 * A.2.1 + k.2 * B.2.1
  let z := k.1 * A.2.2 + k.2 * B.2.2
  (toDeg (atan2 y x), toDeg (atan2 z (Real.sqrt (x ^ 2 + y ^ 2))))

/-- **C8.** On numerically identical endpoints the interpolation is total for
every fraction `t`: the clamped dot product is exactly 1, so `acos` gives 0
and the `|| 1e-12` guard replaces the angular distance, making the divisor
`sin ω = sin 1e-12` nonzero — no division by zero occurs, and the weights
are genuine quotients (`k1 * sinω` recovers `sin((1-t)ω)`), yielding a
well-defined (zero-length) path. -/
theorem gc_degenerate_guarded (lng lat t : ℝ) :
    gcOmega (lng, lat) (lng, lat) = 1e-12 ∧
    gcSinOmega (lng, lat) (lng, lat) ≠ 0 ∧
    (gcK (lng, lat) (lng, lat) t).1 * gcSinOmega (lng, lat) (lng, lat)
      = Real.sin ((1 - t) * gcOmega (lng, lat) (lng, lat)) := by
  have hsum : (sphVec (lng, lat)).1 * (sphVec (lng, lat)).1 +
      (sphVec (lng, lat)).2.1 * (sphVec (lng, lat)).2.1 +
      (sphVec (lng, lat)).2.2 * (sphVec (lng, lat)).2.2 = 1 := by
    simp only [sphVec]
    have hA := Real.sin_sq_add_cos_sq (toRad lng)
    have hB := Real.sin_sq_add_cos_sq (toRad lat)
    linear_combination (Real.cos (toRad lat)) ^ 2 * hA + hB
  have hdot : gcDot (lng, lat) (lng, lat) = 1 := by
    unfold gcDot
    rw [hsum]
    norm_num
  have homega : gcOmega (lng, lat) (lng, lat) = 1e-12 := by
    unfold gcOmega
    rw [hdot, Real.arccos_one]
    norm_num
  have hsin : gcSinOmega (lng, lat) (lng, lat) ≠ 0 := by
    unfold gcSinOmega
    rw [homega]
    apply ne_of_gt
    apply Real.sin_pos_of_pos_of_lt_pi
    · norm_num
    · calc (1e-12 : ℝ) < 3 := by norm_num
        _ < Real.pi := Real.pi_gt_three
  refine ⟨homega, hsin, ?_⟩
  unfold gcK
  exact div_mul_cancel₀ _ hsin

end DDOSMap
